import Mathlib

/-!
Verification of the corporate-culture monitoring system
(capstone-project-25t3-9900-f18a-donut).

The repository ships a React frontend (`frontend/src/api.js`,
`frontend/routes/Dashboard.jsx`, `frontend/src/components/SuggestionSummary.jsx`)
together with a batch pipeline described by the specification (Ingestion
Normalizer, Sentiment Refiner, Taxonomy Resolver, Backfill Writer, Insight
Aggregator).  The frontend JavaScript is embedded shallowly below; the pipeline
stages whose sources are not in the repository snapshot are modelled from the
specification text, as marked on each definition.
-/

/-! ## A small model of JavaScript values

The frontend functions operate on untyped JSON-ish data; we model the value
universe with one inductive type.  Numbers are modelled as integers (the
payload fields handled by the embedded functions are integers or strings);
where the code coerces arbitrary values to numbers (`Number(v)`) the coercion
is taken as an explicit oracle parameter. -/

inductive JVal where
  | undefined : JVal
  | null : JVal
  | bool : Bool → JVal
  | num : Int → JVal
  | str : String → JVal
  | arr : List JVal → JVal
  | obj : List (String × JVal) → JVal

/-- JavaScript truthiness: `undefined`, `null`, `false`, `0` and `""` are
falsy, everything else (including `[]` and `{}`) is truthy. -/
def jsTruthy : JVal → Bool
  | .undefined => false
  | .null => false
  | .bool b => b
  | .num n => n != 0
  | .str s => s != ""
  | .arr _ => true
  | .obj _ => true

/-- JavaScript `a || b`. -/
def jsOr (a b : JVal) : JVal := if jsTruthy a then a else b

/-- JavaScript `a ?? b` (nullish coalescing). -/
def jsNullish (a b : JVal) : JVal :=
  match a with
  | .undefined => b
  | .null => b
  | _ => a

/-- Property access `v.k`.  Object lookup returns the first binding; any
non-object base yields `undefined` (in the embedded sources every bare access
is on a value that is an object or guarded, and `?.` accesses are covered by
the `undefined` result for non-objects). -/
def jsGet (v : JVal) (k : String) : JVal :=
  match v with
  | .obj fields => (fields.lookup k).getD .undefined
  | _ => .undefined

/-- `typeof v === "object"` (true for `null`, arrays and plain objects). -/
def typeofObject : JVal → Bool
  | .null => true
  | .arr _ => true
  | .obj _ => true
  | _ => false

/-- `typeof v === "string"`. -/
def typeofString : JVal → Bool
  | .str _ => true
  | _ => false

/-- `v === undefined` test used by `!== undefined` guards. -/
def isUndefined : JVal → Bool
  | .undefined => true
  | _ => false

/-- `Array.isArray v`. -/
def isArray : JVal → Bool
  | .arr _ => true
  | _ => false

/-- `typeof v === "number"`. -/
def isNum : JVal → Bool
  | .num _ => true
  | _ => false

/-- `Array.isArray(v) ? v : []`. -/
def asArr (v : JVal) : JVal := if isArray v then v else .arr []

/-- The element list of `v` when it is an array, `[]` otherwise
(`Array.isArray(v) ? v : []` in element-list form). -/
def asArrList : JVal → List JVal
  | .arr xs => xs
  | _ => []

/-- `Array.isArray(v) && v.length` as a boolean guard. -/
def isNonemptyArr : JVal → Bool
  | .arr xs => !xs.isEmpty
  | _ => false

mutual

/-- JavaScript `String(v)` conversion. -/
def jsToString : JVal → String
  | .undefined => "undefined"
  | .null => "null"
  | .bool b => cond b "true" "false"
  | .num n => toString n
  | .str s => s
  | .arr xs => String.intercalate "," (jsToStringArr xs)
  | .obj _ => "[object Object]"

/-- `Array.prototype.toString` renders `null`/`undefined` elements as empty. -/
def jsToStringArr : List JVal → List String
  | [] => []
  | .undefined :: vs => "" :: jsToStringArr vs
  | .null :: vs => "" :: jsToStringArr vs
  | v :: vs => jsToString v :: jsToStringArr vs

end

/-- JSON string escaping for the common escapes. -/
def jsonEscape (s : String) : String :=
  s.toList.foldl
    (fun acc c =>
      if c = '"' then acc ++ "\\\""
      else if c = '\\' then acc ++ "\\\\"
      else if c = '\n' then acc ++ "\\n"
      else if c = '\t' then acc ++ "\\t"
      else if c = '\r' then acc ++ "\\r"
      else acc.push c)
    ""

mutual

/-- `JSON.stringify v`; `none` models the `undefined` result on an
`undefined` argument. -/
def jsonStringify : JVal → Option String
  | .undefined => none
  | .null => some "null"
  | .bool b => some (cond b "true" "false")
  | .num n => some (toString n)
  | .str s => some ("\"" ++ jsonEscape s ++ "\"")
  | .arr xs => some ("[" ++ String.intercalate "," (jsonStringifyArr xs) ++ "]")
  | .obj fs => some ("\x7b" ++ String.intercalate "," (jsonStringifyObj fs) ++ "\x7d")

/-- Array elements: `undefined` entries serialize as `null`. -/
def jsonStringifyArr : List JVal → List String
  | [] => []
  | v :: vs => ((jsonStringify v).getD "null") :: jsonStringifyArr vs

/-- Object entries: properties with `undefined` values are skipped. -/
def jsonStringifyObj : List (String × JVal) → List String
  | [] => []
  | (k, v) :: fs =>
    match jsonStringify v with
    | some s => ("\"" ++ jsonEscape k ++ "\":" ++ s) :: jsonStringifyObj fs
    | none => jsonStringifyObj fs

end

/-! ## `frontend/src/api.js` -/

/-- `String.prototype.padStart(n, "0")`. -/
def padZero (n : Nat) (s : String) : String :=
  String.mk (List.replicate (n - s.length) '0') ++ s

/-- The test of the regular expression `/^\d{4}-\d{2}-\d{2}$/` (already in
`YYYY-MM-DD` form). -/
def matchesYMD (s : String) : Bool :=
  match s.toList with
  | [a, b, c, d, h1, e, f, h2, g, i] =>
    a.isDigit && b.isDigit && c.isDigit && d.isDigit && h1 = '-' &&
    e.isDigit && f.isDigit && h2 = '-' && g.isDigit && i.isDigit
  | _ => false

/-- Result of a successful native `new Date(s)` parse, as observed through
`getFullYear` / `getMonth` (0-based) / `getDate`. -/
structure JSDate where
  year : Int
  month : Nat
  day : Nat

/-- `toYMD` from `api.js`: normalise various date formats into `YYYY-MM-DD`,
falling back to the original input when it cannot parse.  The native `Date`
constructor is implementation-defined for free-form strings, so it enters
as the oracle `dateParse` (`none` models an invalid date, for which
`isNaN(d)` is true). -/
def toYMD (dateParse : String → Option JSDate) (s : String) : String :=
  if s = "" then ""
  else if matchesYMD s then s
  else
    match dateParse s with
    | some d =>
      toString d.year ++ "-" ++ padZero 2 (toString (d.month + 1)) ++ "-" ++
        padZero 2 (toString d.day)
    | none =>
      let front := ((s.split (fun c => c = ' ' || c = 'T')).headD "")
      let parts := front.split (fun c => c = '/' || c = '.')
      if parts.length ≥ 3 then
        let y := if (parts.headD "").length = 4 then parts.headD "" else parts.getD 2 ""
        let m := if (parts.headD "").length = 4 then parts.getD 1 "" else parts.headD ""
        let d2 := if (parts.headD "").length = 4 then parts.getD 2 "" else parts.getD 1 ""
        padZero 4 y ++ "-" ++ padZero 2 m ++ "-" ++ padZero 2 d2
      else s

/-- `stripRedditPrefix` from `api.js`: drop everything up to and including the
first underscore ("t1_abc" becomes "abc"); an id with no underscore is
returned unchanged. -/
def stripRedditPrefixFn (pid : String) : String :=
  if pid = "" then ""
  else
    match pid.splitOn "_" with
    | [] => pid
    | [_] => pid
    | _ :: rest => String.intercalate "_" rest

/-- `Math.trunc` on a finite number (truncation toward zero). -/
def jsTrunc (q : ℚ) : Int := if 0 ≤ q then ⌊q⌋ else ⌈q⌉

/-- JavaScript `Number(v)` coercion; `none` models `NaN` and `±Infinity`
(the values `Number.isFinite` rejects).  Coercion of strings, arrays and
objects goes through the environment oracle `coerce`. -/
def jsToNumber (coerce : JVal → Option ℚ) (v : JVal) : Option ℚ :=
  match v with
  | .undefined => none
  | .null => some 0
  | .bool b => some (if b then 1 else 0)
  | .num n => some (n : ℚ)
  | _ => coerce v

/-- The guard `v === null || v === undefined || v === ""`. -/
def isMissingArg : JVal → Bool
  | .null => true
  | .undefined => true
  | .str s => s = ""
  | _ => false

/-- `toInt` from `api.js`: `undefined` on `null`/`undefined`/`""`, otherwise
`Math.trunc(Number(v))` when that number is finite and `undefined` when it
is not. -/
def toInt (coerce : JVal → Option ℚ) (v : JVal) : Option Int :=
  if isMissingArg v then none
  else
    match jsToNumber coerce v with
    | some q => some (jsTrunc q)
    | none => none

/-- `getSBI` from `api.js`.  The result models the visible behaviour of the
function body up to the single `fetchJSON` call: `.error msg` is the thrown
error (no HTTP request is issued on that path), `.ok url` is the URL of the
one request handed to `fetchJSON`. -/
def getSBI (coerce : JVal → Option ℚ) (year month : JVal) :
    Except String String :=
  match toInt coerce year with
  | none => .error "year is required"
  | some y =>
    let params := "year=" ++ toString y
    let params :=
      match toInt coerce month with
      | some m => params ++ "&month=" ++ toString m
      | none => params
    .ok ("/api/sbi?" ++ params)

/-! ### `buildCommentTree` -/

/-- The fields of a flat comment row read by `buildCommentTree`.  `level` and
`depth` hold the numeric value of the corresponding property (`none` when the
property is absent or not a number, in which case `Number(...)` is `NaN` and
compares false).  `body` stands for the remaining payload fields, which the
function copies around untouched. -/
structure RComment where
  level : Option Int := none
  depth : Option Int := none
  comment_id : String := ""
  parent_id : String := ""
  comment_id_norm : String := ""
  parent_comment_id_norm : String := ""
  body : String := ""
deriving DecidableEq, Repr

/-- `Number(c.level) === 1 || Number(c.depth) === 0`. -/
def isLvl1 (c : RComment) : Bool := c.level = some 1 || c.depth = some 0

/-- `Number(c.level) === 2 || Number(c.depth) === 1`. -/
def isLvl2 (c : RComment) : Bool := c.level = some 2 || c.depth = some 1

/-- `c.comment_id_norm || stripRedditPrefix(c.comment_id || "")`. -/
def lvl1Key (c : RComment) : String :=
  if c.comment_id_norm ≠ "" then c.comment_id_norm
  else stripRedditPrefixFn c.comment_id

/-- `c.parent_comment_id_norm || stripRedditPrefix(c.parent_id || "")`. -/
def lvl2Key (c : RComment) : String :=
  if c.parent_comment_id_norm ≠ "" then c.parent_comment_id_norm
  else stripRedditPrefixFn c.parent_id

/-- A node of the built tree: the comment's fields (spread into the node),
its collected replies, and the `_dangling` marker. -/
structure CNode where
  base : RComment
  replies : List RComment
  dangling : Bool
deriving DecidableEq, Repr

/-- First pass of `buildCommentTree`: each level-1 comment becomes a node
with its normalized id overwritten by the map key and an empty reply list;
the `Map` keyed on that id is recovered below by searching the node list. -/
def pass1 (flat : List RComment) : List CNode :=
  flat.filterMap fun c =>
    if isLvl1 c then
      some ⟨{ c with comment_id_norm := lvl1Key c }, [], false⟩
    else none

/-- `map.get(key)` followed by `parent.replies.push(c)`: append `c` to the
replies of the level-1 node the `Map` holds under `key`.  `Map.set`
overwrites, so the held node is the **last** level-1 node with that key;
dangling nodes were never put in the map.  `none` when the map has no such
key. -/
def attachLast : List CNode → String → RComment → Option (List CNode)
  | [], _, _ => none
  | n :: ns, key, c =>
    match attachLast ns key c with
    | some ns' => some (n :: ns')
    | none =>
      if n.dangling = false ∧ n.base.comment_id_norm = key then
        some ({ n with replies := n.replies ++ [c] } :: ns)
      else none

/-- Second-pass step of `buildCommentTree` for one flat row. -/
def treeStep (ns : List CNode) (c : RComment) : List CNode :=
  if isLvl2 c then
    match attachLast ns (lvl2Key c) c with
    | some ns' => ns'
    | none => ns ++ [⟨c, [], true⟩]
  else ns

/-- `buildCommentTree` from `api.js`: collect level-1 comments, then attach
each level-2 comment to its parent when the parent's normalized id is known,
otherwise push it top-level marked `_dangling`. -/
def buildCommentTree (flat : List RComment) : List CNode :=
  flat.foldl treeStep (pass1 flat)

/-! ## `routes/Dashboard.jsx` -/

/-- A post as seen by `computeSBI`: `none` models a post whose
`subs_sentiment` is missing (falsy), `some vs` the list of values of the
`subs_sentiment` object (each already coerced by `String(v)`). -/
abbrev SBIPost := Option (List String)

/-- The loop body of `computeSBI`, accumulating `(pos, neg, neu)`. -/
def sbiStep (acc : Nat × Nat × Nat) (v : String) : Nat × Nat × Nat :=
  let s := v.toLower
  if s = "positive" then (acc.1 + 1, acc.2.1, acc.2.2)
  else if s = "negative" then (acc.1, acc.2.1 + 1, acc.2.2)
  else (acc.1, acc.2.1, acc.2.2 + 1)

/-- `computeSBI` from `Dashboard.jsx`: count positive / negative / neutral
subtheme sentiment entries over all posts (skipping posts without
`subs_sentiment`) and return `((pos - neg) / d) * 100`, or `0` when there
are no entries. -/
def computeSBI (posts : List SBIPost) : ℚ :=
  let counts :=
    ((posts.filterMap id).flatten).foldl sbiStep (0, 0, 0)
  let pos := counts.1
  let neg := counts.2.1
  let neu := counts.2.2
  let d := pos + neg + neu
  if d = 0 then 0 else (((pos : ℚ) - (neg : ℚ)) / (d : ℚ)) * 100

/-! ## `components/SuggestionSummary.jsx` -/

/-- `detectKind` from `SuggestionSummary.jsx`. -/
def detectKind (p : JVal) : String :=
  if !(jsTruthy p) || !(typeofObject p) then "unknown"
  else if jsTruthy (jsGet p "subtheme") then "subtheme"
  else if jsTruthy (jsGet p "dimension") then "dimension"
  else if jsTruthy (jsGet p "section") &&
      jsTruthy (jsOr (jsGet (jsGet p "section") "executive_briefing")
        (jsOr (jsGet (jsGet p "section") "executiveBriefing")
          (jsGet (jsGet p "section") "overview"))) then "overall"
  else if jsTruthy (jsGet p "top_subthemes") then "dimension"
  else if jsTruthy (jsGet p "typical_contexts") then "subtheme"
  else "unknown"

/-- The "overall" branch of `normalizePayload`. -/
def normOverall (p : JVal) : JVal :=
  let sec := jsOr (jsGet p "section") (.obj [])
  let eb := jsOr (jsGet sec "executive_briefing")
    (jsOr (jsGet sec "executiveBriefing") (jsOr (jsGet sec "overview") (.obj [])))
  let counts := jsOr (jsGet (jsGet eb "sentiment_and_confidence") "counts")
    (jsOr (jsGet eb "counts") (.obj []))
  let avg := jsNullish (jsGet (jsGet eb "sentiment_and_confidence") "average_confidence")
    (jsGet eb "average_confidence")
  .obj [
    ("title", jsOr (jsGet p "report_title") (jsOr (jsGet p "title") (.str "Insights"))),
    ("sections", .arr [
      .obj [("title", .str "Executive Briefing"), ("type", .str "bullets"),
        ("content", .arr (asArrList (jsGet eb "key_insights") ++
          (if jsTruthy (jsGet eb "title") then [.str (jsToString (jsGet eb "title"))]
           else [])))],
      .obj [("title", .str "Sentiment & Confidence"), ("type", .str "sentiment"),
        ("content", .obj [
          ("summary", jsOr (jsGet (jsGet eb "sentiment_and_confidence") "summary")
            (jsOr (jsGet eb "summary") (.str ""))),
          ("counts", .obj [
            ("positive", jsNullish (jsGet counts "positive") (.num 0)),
            ("negative", jsNullish (jsGet counts "negative") (.num 0)),
            ("average_confidence", if isNum avg then avg else .undefined)]),
          ("overall", jsOr (jsGet (jsGet eb "sentiment_and_confidence") "overall_sentiment")
            (jsOr (jsGet eb "overall_sentiment") (.str "")))])],
      .obj [("title", .str "Risks & Opportunities"), ("type", .str "riskopp"),
        ("content", .obj [
          ("risks", jsOr (jsGet (jsGet eb "risks_and_opportunities") "risks")
            (jsOr (jsGet eb "risks") (.arr []))),
          ("opportunities", jsOr (jsGet (jsGet eb "risks_and_opportunities") "opportunities")
            (jsOr (jsGet eb "opportunities") (.arr [])))])],
      .obj [("title", .str "Actionable Recommendations"), ("type", .str "actions"),
        ("content", jsOr (jsGet eb "actionable_recommendations")
          (jsOr (jsGet eb "recommendations") (.arr [])))]])]

/-- The conditional "Sentiment Snapshot" section pushed by the dimension and
subtheme branches (empty list when the guard fails). -/
def snapSection (snap : JVal) : List JVal :=
  if jsTruthy snap &&
      (!isUndefined (jsGet snap "positive") || !isUndefined (jsGet snap "negative") ||
       !isUndefined (jsGet snap "average_confidence") ||
       jsTruthy (jsGet snap "overall_sentiment")) then
    [.obj [("title", .str "Sentiment Snapshot"), ("type", .str "sentiment"),
      ("content", .obj [
        ("summary", .str ""),
        ("counts", .obj [
          ("positive", jsNullish (jsGet snap "positive") (.num 0)),
          ("negative", jsNullish (jsGet snap "negative") (.num 0)),
          ("average_confidence", jsGet snap "average_confidence")]),
        ("overall", jsGet snap "overall_sentiment")])]]
  else []

/-- A conditionally pushed `type: "list"` section
(`if (Array.isArray(v) && v.length) sections.push(...)`). -/
def listSection (t : String) (v : JVal) : List JVal :=
  if isNonemptyArr v then
    [.obj [("title", .str t), ("type", .str "list"), ("content", v)]]
  else []

/-- The conditionally pushed "Actionable Recommendations" section. -/
def actionsSection (recs : JVal) : List JVal :=
  if isNonemptyArr recs then
    [.obj [("title", .str "Actionable Recommendations"), ("type", .str "actions"),
      ("content", recs)]]
  else []

/-- One element of the "Top Subthemes" list:
`typeof x === "string" ? x : x.subtheme ? `${x.subtheme} — ${x.count ?? 0}` :
JSON.stringify(x)`. -/
def topsItem (x : JVal) : JVal :=
  if typeofString x then x
  else if jsTruthy (jsGet x "subtheme") then
    .str (jsToString (jsGet x "subtheme") ++ " — " ++
      jsToString (jsNullish (jsGet x "count") (.num 0)))
  else
    match jsonStringify x with
    | some s => .str s
    | none => .undefined

/-- The "dimension" branch of `normalizePayload`. -/
def normDimension (p : JVal) : JVal :=
  let OVER := jsOr (jsGet p "overview") (jsOr (jsGet p "summary") (.str ""))
  let KP := jsOr (jsGet p "key_patterns") (jsOr (jsGet p "keyPatterns") (.arr []))
  let SNAP := jsOr (jsGet p "sentiment_snapshot") (jsOr (jsGet p "sentiment") (.obj []))
  let TOPS := jsOr (jsGet p "top_subthemes") (.arr [])
  let RISKONLY := jsOr (jsGet p "risks_and_blindspots") (jsOr (jsGet p "risks") (.arr []))
  let RECS := jsOr (jsGet p "recommendations") (.arr [])
  let sections : List JVal :=
    [.obj [("title", .str "Executive Briefing"), ("type", .str "overview"),
      ("content", .obj [("overview", OVER), ("key_patterns", asArr KP)])]]
    ++ snapSection SNAP
    ++ (if isNonemptyArr TOPS then
        [.obj [("title", .str "Top Subthemes"), ("type", .str "list"),
          ("content", .arr ((asArrList TOPS).map topsItem))]]
      else [])
    ++ listSection "Risks & Blindspots" RISKONLY
    ++ actionsSection RECS
  .obj [
    ("title", jsOr (jsGet p "dimension") (jsOr (jsGet p "title") (.str "Dimension"))),
    ("sections", .arr sections)]

/-- The "subtheme" branch of `normalizePayload`. -/
def normSubtheme (p : JVal) : JVal :=
  let OVER := jsOr (jsGet p "overview") (jsOr (jsGet p "summary") (.str ""))
  let KP := jsOr (jsGet p "key_patterns") (jsOr (jsGet p "keyPatterns") (.arr []))
  let SNAP := jsOr (jsGet p "sentiment_snapshot") (jsOr (jsGet p "sentiment") (.obj []))
  let CTX := jsOr (jsGet p "typical_contexts") (.arr [])
  let RISKONLY := jsOr (jsGet p "risks_and_blindspots") (jsOr (jsGet p "risks") (.arr []))
  let RECS := jsOr (jsGet p "recommendations") (.arr [])
  let parents := jsOr (jsGet p "parent_dimensions")
    (jsOr (jsGet p "parentDimensions") (.arr []))
  let sections : List JVal :=
    [.obj [("title", .str "Executive Briefing"), ("type", .str "overview"),
      ("content", .obj [("overview", OVER), ("key_patterns", asArr KP)])]]
    ++ snapSection SNAP
    ++ listSection "Typical Contexts" CTX
    ++ listSection "Risks & Blindspots" RISKONLY
    ++ actionsSection RECS
  .obj [
    ("title", jsOr (jsGet p "subtheme") (jsOr (jsGet p "title") (.str "Subtheme"))),
    ("metaBadges", .arr ((asArrList parents).map (fun v => .str (jsToString v)))),
    ("sections", .arr sections)]

/-- The fallback branch of `normalizePayload`. -/
def normFallback (p : JVal) : JVal :=
  let OVER := jsOr (jsGet p "overview") (jsOr (jsGet p "summary") (.str ""))
  let KP := jsOr (jsGet p "key_patterns") (jsOr (jsGet p "keyPatterns") (.arr []))
  let RECS := jsOr (jsGet p "recommendations") (.arr [])
  let sections : List JVal :=
    (if jsTruthy OVER || isNonemptyArr KP then
      [.obj [("title", .str "Executive Briefing"), ("type", .str "overview"),
        ("content", .obj [("overview", OVER), ("key_patterns", asArr KP)])]]
     else [])
    ++ actionsSection RECS
  .obj [("title", jsOr (jsGet p "title") (.str "Insights")), ("sections", .arr sections)]

/-- `normalizePayload` from `SuggestionSummary.jsx`: dispatch on the detected
payload kind, after the initial non-object guard. -/
def normalizePayload (p : JVal) : JVal :=
  if !(jsTruthy p) || !(typeofObject p) then
    .obj [("title", .str ""), ("sections", .arr [])]
  else
    let kind := detectKind p
    if kind = "overall" then normOverall p
    else if kind = "dimension" then normDimension p
    else if kind = "subtheme" then normSubtheme p
    else normFallback p

/-! ### The `type: "actions"` branch of `SectionView` -/

/-- The visible parts of one rendered recommendation card: the headline text
(`typeof a === "string" ? a : a.recommendation || a.text || JSON.stringify(a)`)
and — only when `typeof a === "object"` — the meta line
`(a.ownership ? "Owner: ..." : "") + (a.impact ? "Impact: ..." : "")`. -/
structure RenderedAction where
  text : JVal
  meta : Option String

/-- Headline of one recommendation card in `SectionView`. -/
def renderActionText (a : JVal) : JVal :=
  if typeofString a then a
  else
    jsOr (jsGet a "recommendation") (jsOr (jsGet a "text")
      (match jsonStringify a with
       | some s => .str s
       | none => .undefined))

/-- Meta line of one recommendation card in `SectionView`
(`none` when `typeof a !== "object"` and the meta `div` is not rendered). -/
def renderActionMeta (a : JVal) : Option String :=
  if typeofObject a then
    some ((if jsTruthy (jsGet a "ownership") then
        "Owner: " ++ jsToString (jsGet a "ownership") ++ " · "
      else "") ++
      (if jsTruthy (jsGet a "impact") then
        "Impact: " ++ jsToString (jsGet a "impact")
      else ""))
  else none

/-- One rendered recommendation card. -/
def renderAction (a : JVal) : RenderedAction :=
  ⟨renderActionText a, renderActionMeta a⟩

/-- The whole `type: "actions"` section body (`sec.content.map(...)`). -/
def renderActions (content : List JVal) : List RenderedAction :=
  content.map renderAction

/-! ## Pipeline stages modelled from the specification

The batch pipeline (Ingestion Normalizer, Sentiment Refiner, Taxonomy
Resolver, Backfill Writer, Insight Aggregator) is described in the
specification but its sources are not part of the repository snapshot; the
definitions below are modelled from the specification text. -/

/-- Modelled from the spec: the Taxonomy Resolver's phrase normalisation used
for near-duplicate clustering — lowercase, strip punctuation, collapse
whitespace, so that "career growth", "Career Growth!" and
" career   growth " share one canonical key (§8 clustering example).  The
Resolver source is not in the repository snapshot. -/
def normPhrase (s : String) : String :=
  let kept := s.toLower.toList.filter (fun c => c.isAlphanum || c = ' ')
  String.intercalate " " (((String.mk kept).split (· = ' ')).filter (· ≠ ""))

/-- Sorted list of the distinct raw phrases: the deterministic canonical
order the Resolver processes the phrase universe in (rerunning on the same
phrase set yields the same order regardless of arrival order). -/
def sortDedup (phrases : List String) : List String :=
  (phrases.dedup).insertionSort (· ≤ ·)

/-- Modelled from the spec: a subtheme cluster of the dimension mapping
artifact — canonical representative text, member raw phrases, frequency
count, assigned dimension and assignment score (§3 data model). -/
structure Cluster where
  representative : String
  members : List String
  frequency : Nat
  dimension : String
  score : ℚ
deriving DecidableEq, Repr

/-- Highest-scoring dimension for a canonical subtheme key (first dimension
wins ties; the spec's frequency-weighted seed-tag tie-break needs the seed
tags, which the modelled input does not carry — the claims settled against
this model do not depend on the tie-break). -/
def bestDim (scorer : String → String → ℚ) (dims : List String) (k : String) :
    String × ℚ :=
  match dims with
  | [] => ("Unclassified", 0)
  | d :: ds =>
    ds.foldl (fun best d' => if scorer k d' > best.2 then (d', scorer k d') else best)
      (d, scorer k d)

/-- Modelled from the spec: dimension assignment with the configured
confidence floor — best score below the floor routes to "Unclassified"
(§4.3(b)). -/
def assignDimension (scorer : String → String → ℚ) (floor : ℚ)
    (dims : List String) (k : String) : String × ℚ :=
  let best := bestDim scorer dims k
  if best.2 < floor then ("Unclassified", best.2) else best

/-- Modelled from the spec: the Taxonomy Resolver (§4.3) — cluster the
distinct raw subtheme phrases by canonical key, then map every cluster to a
dimension with the relevance scorer; the whole mapping is regenerated from
the inputs alone (phrase table, scorer, thresholds).  The Resolver source is
not in the repository snapshot. -/
def resolveMapping (scorer : String → String → ℚ) (floor : ℚ)
    (dims : List String) (phrases : List String) : List Cluster :=
  let distinct := sortDedup phrases
  let keys := (distinct.map normPhrase).dedup
  keys.map fun k =>
    let members := distinct.filter (fun p => normPhrase p = k)
    let ds := assignDimension scorer floor dims k
    { representative := members.headD ""
      members := members
      frequency := phrases.countP (fun p => normPhrase p = k)
      dimension := ds.1
      score := ds.2 }

/-- Deterministic JSON serialization of one cluster of the dimension mapping
artifact (§6 artifact schema). -/
def serializeCluster (c : Cluster) : String :=
  "\x7b\"canonical_subtheme\":\"" ++ jsonEscape c.representative ++
  "\",\"member_phrases\":[" ++
  String.intercalate "," (c.members.map (fun m => "\"" ++ jsonEscape m ++ "\"")) ++
  "],\"representative_text\":\"" ++ jsonEscape c.representative ++
  "\",\"frequency\":" ++ toString c.frequency ++
  ",\"dimension\":\"" ++ jsonEscape c.dimension ++
  "\",\"score\":" ++ toString c.score ++ "\x7d"

/-- Deterministic JSON serialization of the whole dimension mapping artifact
(the bytes written to disk). -/
def serializeMapping (cs : List Cluster) : String :=
  "[" ++ String.intercalate "," (cs.map serializeCluster) ++ "]"

/-- Modelled from the spec: one row of the canonical comment table (§6 —
id, source, time, text, sentiment_label, sentiment_confidence,
audit_rechecked, raw_subtheme, canonical_subtheme, final_dimension). -/
structure SComment where
  id : String := ""
  source : String := ""
  time : String := ""
  text : String := ""
  sentiment_label : String := "neutral"
  sentiment_confidence : ℚ := 0
  audit_rechecked : Bool := false
  raw_subtheme : String := ""
  canonical_subtheme : Option String := none
  final_dimension : Option String := none
deriving DecidableEq, Repr

/-- Modelled from the spec: the Sentiment Refiner on one comment (§4.2) —
re-classify only when the label is "neutral" or the confidence is below the
configured threshold; overwrite label/confidence and set the audit flag only
when the new confidence exceeds the old by the configured margin.  The
Refiner source is not in the repository snapshot. -/
def refineComment (classify : String → String × ℚ) (threshold margin : ℚ)
    (c : SComment) : SComment :=
  if c.sentiment_label = "neutral" || c.sentiment_confidence < threshold then
    let res := classify c.text
    if c.sentiment_confidence + margin < res.2 then
      { c with
        sentiment_label := res.1
        sentiment_confidence := res.2
        audit_rechecked := true }
    else c
  else c

/-- Modelled from the spec: the per-comment Refiner applied to the whole
canonical comment table. -/
def refineAll (classify : String → String × ℚ) (threshold margin : ℚ)
    (comments : List SComment) : List SComment :=
  comments.map (refineComment classify threshold margin)

/-- Modelled from the spec: the Insight Aggregator's scope statistics (§4.5 —
positive/negative counts, average confidence, majority overall sentiment). -/
structure SentimentStats where
  positive : Nat
  negative : Nat
  average_confidence : ℚ
  overall_sentiment : String
deriving DecidableEq, Repr

/-- Modelled from the spec: compute the aggregate statistics of one scope. -/
def computeStats (comments : List SComment) : SentimentStats :=
  let pos := (comments.filter (fun c => c.sentiment_label = "positive")).length
  let neg := (comments.filter (fun c => c.sentiment_label = "negative")).length
  let avg :=
    if comments.length = 0 then 0
    else (comments.map (·.sentiment_confidence)).sum / (comments.length : ℚ)
  let overall :=
    if pos > neg then "positive" else if neg > pos then "negative" else "neutral"
  ⟨pos, neg, avg, overall⟩

/-- Modelled from the spec: a scoped report artifact — statistics plus the
narrative sections when narrative generation succeeded, and the
`narrative_unavailable` flag (§3, §6). -/
structure Report where
  title : String
  stats : SentimentStats
  narrative : Option (List String)
  narrative_unavailable : Bool
deriving DecidableEq, Repr

/-- Modelled from the spec: the bounded retry loop around the external
narrative-summarization call — attempts `0, 1, …, retries-1` in order, first
success wins, `none` after exhausting the budget.  `call i` is the outcome
of attempt `i` (`.error` covers timeout, transport error and a
schema-invalid response, which is discarded and treated as a failed
attempt). -/
def runRetries (call : Nat → Except String (List String)) (retries : Nat) :
    Option (List String) :=
  (List.range retries).findSome? (fun i => (call i).toOption)

/-- Modelled from the spec: the Insight Aggregator for one scope (§4.5) —
always emits a report with the computed statistics; the narrative comes from
the retried external call, and after exhausting retries the report carries
`narrative_unavailable := true` instead of failing the run.  The returned
`Nat` is the pipeline exit code for this path.  The Aggregator source is not
in the repository snapshot. -/
def aggregate (call : Nat → Except String (List String)) (retries : Nat)
    (title : String) (comments : List SComment) : Report × Nat :=
  match runRetries call retries with
  | some narr => (⟨title, computeStats comments, some narr, false⟩, 0)
  | none => (⟨title, computeStats comments, none, true⟩, 0)

/-! ## Helper lemmas -/

lemma count_flatten_eq {α : Type} [DecidableEq α] (l : List (List α)) (a : α) :
    l.flatten.count a = (l.map (List.count a)).sum := by
  induction l with
  | nil => rfl
  | cons x xs ih => simp [List.count_append, ih]

lemma count_filter_ite {α : Type} [DecidableEq α] (q : α → Bool) (l : List α) (p : α) :
    (l.filter q).count p = if q p then l.count p else 0 := by
  induction l with
  | nil => simp
  | cons x xs ih =>
    by_cases hx : p = x
    · subst hx
      by_cases hq : q p <;> simp [List.filter_cons, hq, List.count_cons, ih]
    · by_cases hq : q x <;>
        simp [List.filter_cons, hq, List.count_cons, hx, ih]

lemma sum_map_ite_key (keys : List String) (x : String) (v : Nat) (h : keys.Nodup) :
    (keys.map (fun k => if x = k then v else 0)).sum = if x ∈ keys then v else 0 := by
  induction keys with
  | nil => simp
  | cons k ks ih =>
    rcases List.nodup_cons.mp h with ⟨hk, hks⟩
    by_cases hx : x = k
    · subst hx
      have hzero : (ks.map (fun k' => if x = k' then v else 0)).sum = 0 := by
        apply List.sum_eq_zero
        intro y hy
        rcases List.mem_map.mp hy with ⟨k', hk', rfl⟩
        have : x ≠ k' := fun he => hk (he ▸ hk')
        simp [this]
      simp [hzero]
    · simp [hx, ih hks, List.mem_cons]

lemma sortDedup_nodup (phrases : List String) : (sortDedup phrases).Nodup :=
  ((List.perm_insertionSort _ _).nodup_iff).mpr (List.nodup_dedup _)

lemma sortDedup_mem (phrases : List String) (q : String) :
    q ∈ sortDedup phrases ↔ q ∈ phrases :=
  ((List.perm_insertionSort _ _).mem_iff).trans List.mem_dedup

/-! ## Claims about the Taxonomy Resolver (modelled from the spec) -/

/-- C1: in the dimension mapping artifact, the clusters partition the set of
distinct raw subtheme phrases — every phrase occurring in the input appears
in the member lists of the clusters exactly once (union is the full distinct
phrase set, no phrase in two clusters, no duplicates), and nothing else
appears. -/
theorem resolveMapping_partition (scorer : String → String → ℚ) (floor : ℚ)
    (dims : List String) (phrases : List String) (p : String) :
    (((resolveMapping scorer floor dims phrases).map Cluster.members).flatten).count p =
      if p ∈ phrases then 1 else 0 := by
  have hnd := sortDedup_nodup phrases
  have hmap : (resolveMapping scorer floor dims phrases).map Cluster.members
      = ((sortDedup phrases).map normPhrase).dedup.map
          (fun k => (sortDedup phrases).filter (fun q => normPhrase q = k)) := by
    simp [resolveMapping, List.map_map]
  rw [hmap, count_flatten_eq, List.map_map]
  have hterm : ((sortDedup phrases).map normPhrase).dedup.map
        (List.count p ∘ fun k => (sortDedup phrases).filter (fun q => normPhrase q = k))
      = ((sortDedup phrases).map normPhrase).dedup.map
          (fun k => if normPhrase p = k then (sortDedup phrases).count p else 0) := by
    refine List.map_congr_left fun k _ => ?_
    have := count_filter_ite (fun q => decide (normPhrase q = k)) (sortDedup phrases) p
    simpa using this
  rw [hterm, sum_map_ite_key _ _ _ (List.nodup_dedup _)]
  by_cases hp : p ∈ phrases
  · have hpd : p ∈ sortDedup phrases := (sortDedup_mem phrases p).mpr hp
    have hkey : normPhrase p ∈ ((sortDedup phrases).map normPhrase).dedup :=
      List.mem_dedup.mpr (List.mem_map_of_mem _ hpd)
    rw [if_pos hkey, if_pos hp, List.count_eq_one_of_mem hnd hpd]
  · have hpd : p ∉ sortDedup phrases := fun h => hp ((sortDedup_mem phrases p).mp h)
    rw [List.count_eq_zero_of_not_mem hpd, if_neg hp]
    simp

/-- C2: the Taxonomy Resolver is reproducible — two runs on the same input
phrase table (the same phrases with the same multiplicities, in any arrival
order), the same relevance scorer, the same confidence floor and the same
dimension set produce the identical dimension mapping (same clusters, same
assignments, same scores), and the serialized dimension mapping artifact is
byte-identical. -/
theorem resolveMapping_reproducible (scorer : String → String → ℚ) (floor : ℚ)
    (dims : List String) (l₁ l₂ : List String) (h : l₁.Perm l₂) :
    resolveMapping scorer floor dims l₁ = resolveMapping scorer floor dims l₂ ∧
    serializeMapping (resolveMapping scorer floor dims l₁) =
      serializeMapping (resolveMapping scorer floor dims l₂) := by
  have hd : sortDedup l₁ = sortDedup l₂ :=
    List.eq_of_perm_of_sorted
      ((List.perm_insertionSort _ _).trans ((h.dedup).trans
        (List.perm_insertionSort _ _).symm))
      (List.sorted_insertionSort _ _) (List.sorted_insertionSort _ _)
  have hmain : resolveMapping scorer floor dims l₁ = resolveMapping scorer floor dims l₂ := by
    unfold resolveMapping
    rw [hd]
    refine List.map_congr_left fun k _ => ?_
    have hc : l₁.countP (fun p => normPhrase p = k) =
        l₂.countP (fun p => normPhrase p = k) := h.countP_eq _
    simp [hc]
  exact ⟨hmain, by rw [hmain]⟩

/-- C2 witness: two arrival orders of the same phrase table give the
byte-identical artifact. -/
theorem resolveMapping_reproducible_witness :
    (["pay", "career growth"].Perm ["career growth", "pay"]) ∧
    resolveMapping (fun _ _ => 1) 0 ["Learning"] ["pay", "career growth"] =
      resolveMapping (fun _ _ => 1) 0 ["Learning"] ["career growth", "pay"] ∧
    serializeMapping (resolveMapping (fun _ _ => 1) 0 ["Learning"] ["pay", "career growth"]) =
      serializeMapping (resolveMapping (fun _ _ => 1) 0 ["Learning"] ["career growth", "pay"]) :=
  ⟨by decide,
   (resolveMapping_reproducible (fun _ _ => 1) 0 ["Learning"] _ _ (by decide)).1,
   (resolveMapping_reproducible (fun _ _ => 1) 0 ["Learning"] _ _ (by decide)).2⟩

/-! ## Claim about the Sentiment Refiner (modelled from the spec) -/

/-- C4: a comment that does not meet the re-check criteria — its label is not
"neutral" and its confidence is not below the configured threshold — passes
through the Refiner unchanged in every field. -/
theorem refineComment_passthrough (classify : String → String × ℚ)
    (threshold margin : ℚ) (c : SComment)
    (h1 : c.sentiment_label ≠ "neutral")
    (h2 : ¬ c.sentiment_confidence < threshold) :
    refineComment classify threshold margin c = c := by
  simp [refineComment, h1, h2]

/-- C4 witness: a confident positive comment is returned byte-for-byte. -/
theorem refineComment_passthrough_witness :
    (let c : SComment :=
      { id := "c9", source := "reddit", time := "2025-01-01", text := "great team",
        sentiment_label := "positive", sentiment_confidence := 1,
        audit_rechecked := false, raw_subtheme := "career growth",
        canonical_subtheme := none, final_dimension := none }
     refineComment (fun _ => ("negative", 1)) 0 0 c = c) :=
  refineComment_passthrough (fun _ => ("negative", 1)) 0 0 _
    (by decide) (by decide)

/-! ## Claim about the Insight Aggregator (modelled from the spec) -/

/-- C5: when every attempt of the bounded retry policy fails, the Aggregator
still emits a report whose statistics are the computed statistics of the
scope and whose `narrative_unavailable` flag is true, and the run exits
with code 0. -/
theorem aggregate_fallback (call : Nat → Except String (List String))
    (retries : Nat) (title : String) (comments : List SComment)
    (h : ∀ i, i < retries → ∃ e, call i = .error e) :
    (aggregate call retries title comments).1.narrative_unavailable = true ∧
    (aggregate call retries title comments).1.stats = computeStats comments ∧
    (aggregate call retries title comments).2 = 0 := by
  have hr : runRetries call retries = none := by
    unfold runRetries
    rw [List.findSome?_eq_none_iff]
    intro i hi
    obtain ⟨e, he⟩ := h i (List.mem_range.mp hi)
    simp [he, Except.toOption]
  simp [aggregate, hr]

/-- C5 witness: three consecutive timeouts still yield a statistics-only
report with `narrative_unavailable` true and exit code 0. -/
theorem aggregate_fallback_witness :
    (aggregate (fun _ => .error "timeout") 3 "overall" []).1.narrative_unavailable = true ∧
    (aggregate (fun _ => .error "timeout") 3 "overall" []).1.stats = computeStats [] ∧
    (aggregate (fun _ => .error "timeout") 3 "overall" []).2 = 0 :=
  aggregate_fallback (fun _ => .error "timeout") 3 "overall" []
    (fun _ _ => ⟨"timeout", rfl⟩)

/-! ## Claim about `computeSBI` (`Dashboard.jsx`) -/

lemma sbiFold_counts (l : List String) (a b c : Nat) :
    l.foldl sbiStep (a, b, c) =
      (a + l.countP (fun s => s.toLower = "positive"),
       b + l.countP (fun s => s.toLower = "negative"),
       c + l.countP (fun s => s.toLower ≠ "positive" && s.toLower ≠ "negative")) := by
  induction l generalizing a b c with
  | nil => simp
  | cons x xs ih =>
    simp only [List.foldl_cons, List.countP_cons]
    by_cases hp : x.toLower = "positive"
    · have e1 : decide (x.toLower = "positive") = true := by rw [hp]; decide
      have e2 : decide (x.toLower = "negative") = false := by rw [hp]; decide
      have e3 : (decide (x.toLower ≠ "positive") && decide (x.toLower ≠ "negative")) = false := by
        rw [hp]; decide
      rw [show sbiStep (a, b, c) x = (a + 1, b, c) by simp [sbiStep, hp]]
      rw [ih]
      simp only [e1, e2, e3, if_true, if_false, Prod.mk.injEq]
      refine ⟨by omega, by simp, by simp⟩
    · by_cases hn : x.toLower = "negative"
      · have e1 : decide (x.toLower = "positive") = false := by simpa using hp
        have e2 : decide (x.toLower = "negative") = true := by rw [hn]; decide
        have e3 : (decide (x.toLower ≠ "positive") && decide (x.toLower ≠ "negative")) = false := by
          rw [hn]; decide
        rw [show sbiStep (a, b, c) x = (a, b + 1, c) by simp [sbiStep, hp, hn]]
        rw [ih]
        simp only [e1, e2, e3, if_true, if_false, Prod.mk.injEq]
        refine ⟨by simp, by omega, by simp⟩
      · have e1 : decide (x.toLower = "positive") = false := by simpa using hp
        have e2 : decide (x.toLower = "negative") = false := by simpa using hn
        have e3 : (decide (x.toLower ≠ "positive") && decide (x.toLower ≠ "negative")) = true := by
          simp [hp, hn]
        rw [show sbiStep (a, b, c) x = (a, b, c + 1) by simp [sbiStep, hp, hn]]
        rw [ih]
        simp only [e1, e2, e3, if_true, if_false, Prod.mk.injEq]
        refine ⟨by simp, by simp, by omega⟩

lemma sbi_counts_total (l : List String) :
    l.countP (fun s => s.toLower = "positive") +
    l.countP (fun s => s.toLower = "negative") +
    l.countP (fun s => s.toLower ≠ "positive" && s.toLower ≠ "negative") = l.length := by
  induction l with
  | nil => simp
  | cons x xs ih =>
    simp only [List.countP_cons, List.length_cons]
    by_cases hp : x.toLower = "positive"
    · have e1 : decide (x.toLower = "positive") = true := by rw [hp]; decide
      have e2 : decide (x.toLower = "negative") = false := by rw [hp]; decide
      have e3 : (decide (x.toLower ≠ "positive") && decide (x.toLower ≠ "negative")) = false := by
        rw [hp]; decide
      simp only [e1, e2, e3]
      simp only [ne_eq, decide_not] at ih ⊢
      simp
      omega
    · by_cases hn : x.toLower = "negative"
      · have e1 : decide (x.toLower = "positive") = false := by
          simpa using hp
        have e2 : decide (x.toLower = "negative") = true := by rw [hn]; decide
        have e3 : (decide (x.toLower ≠ "positive") && decide (x.toLower ≠ "negative")) = false := by
          rw [hn]; decide
        simp only [e1, e2, e3]
        simp only [ne_eq, decide_not] at ih ⊢
        simp
        omega
      · have e1 : decide (x.toLower = "positive") = false := by
          simpa using hp
        have e2 : decide (x.toLower = "negative") = false := by
          simpa using hn
        have e3 : (decide (x.toLower ≠ "positive") && decide (x.toLower ≠ "negative")) = true := by
          simp [hp, hn]
        simp only [e1, e2, e3]
        simp only [ne_eq, decide_not] at ih ⊢
        simp
        omega

/-- C3: `computeSBI` returns the normalized `(pos − neg)/total` metric on the
−100..100 scale over all subtheme sentiment entries of the posts (every
entry whose lower-cased value is neither "positive" nor "negative" counts as
neutral), and returns 0 when there are no sentiment entries at all. -/
theorem computeSBI_spec (posts : List SBIPost) :
    computeSBI posts =
      (let entries := (posts.filterMap id).flatten
       let pos := entries.countP (fun s => s.toLower = "positive")
       let neg := entries.countP (fun s => s.toLower = "negative")
       let neu := entries.countP (fun s => s.toLower ≠ "positive" && s.toLower ≠ "negative")
       if entries = [] then 0
       else 100 * (((pos : ℚ) - (neg : ℚ)) / ((pos : ℚ) + (neg : ℚ) + (neu : ℚ)))) := by
  unfold computeSBI
  rw [sbiFold_counts]
  simp only [Nat.zero_add]
  set L := (posts.filterMap id).flatten with hL
  set P := L.countP (fun s => s.toLower = "positive") with hP
  set N := L.countP (fun s => s.toLower = "negative") with hN
  set U := L.countP (fun s => s.toLower ≠ "positive" && s.toLower ≠ "negative") with hU
  have htot : P + N + U = L.length := sbi_counts_total L
  by_cases h0 : L = []
  · have : P + N + U = 0 := by rw [htot, h0]; rfl
    simp [h0, this]
  · have hlen : L.length ≠ 0 := by
      intro hl
      exact h0 (List.length_eq_zero.mp hl)
    have hne : ¬ (P + N + U = 0) := by rw [htot]; exact hlen
    rw [if_neg hne, if_neg h0]
    push_cast
    ring

/-! ## Claim about `toYMD` (`api.js`) -/

/-- C9: on any string already in `YYYY-MM-DD` form (four digits, dash, two
digits, dash, two digits) `toYMD` is the identity — it returns its input
unchanged, whatever the native date parser does — and is therefore
idempotent on already-normalized dates. -/
theorem toYMD_identity_on_ymd (dateParse : String → Option JSDate) (s : String)
    (h : matchesYMD s = true) :
    toYMD dateParse s = s ∧ toYMD dateParse (toYMD dateParse s) = s := by
  have hs : s ≠ "" := by
    intro he
    rw [he] at h
    simp [matchesYMD] at h
  have hid : toYMD dateParse s = s := by
    unfold toYMD
    rw [if_neg hs, if_pos h]
  exact ⟨hid, by rw [hid, hid]⟩

/-- C9 witness: a concrete normalized date is returned unchanged. -/
theorem toYMD_identity_on_ymd_witness :
    matchesYMD "2024-01-02" = true ∧
    toYMD (fun _ => none) "2024-01-02" = "2024-01-02" ∧
    toYMD (fun _ => none) (toYMD (fun _ => none) "2024-01-02") = "2024-01-02" :=
  ⟨rfl, (toYMD_identity_on_ymd (fun _ => none) "2024-01-02" rfl).1,
    (toYMD_identity_on_ymd (fun _ => none) "2024-01-02" rfl).2⟩

/-! ## Claim about `getSBI` (`api.js`) -/

/-- C10: `getSBI` throws "year is required" exactly when `toInt` cannot turn
the `year` argument into an integer — the argument is missing (`undefined`
or `null`), the empty string, or coerces to a non-finite number — and on
that path the result carries no request URL, so the error is thrown before
any HTTP request is issued; otherwise exactly one request URL is produced. -/
theorem getSBI_year_guard (coerce : JVal → Option ℚ) (year month : JVal) :
    ((getSBI coerce year month = .error "year is required") ↔
      toInt coerce year = none) ∧
    (toInt coerce year = none ↔
      (year = .undefined ∨ year = .null ∨ year = .str "" ∨
        jsToNumber coerce year = none)) ∧
    (toInt coerce year = none ∨ ∃ url, getSBI coerce year month = .ok url) := by
  refine ⟨?_, ?_, ?_⟩
  · cases h : toInt coerce year <;> simp [getSBI, h]
  · cases year with
    | undefined => simp [toInt, isMissingArg]
    | null => simp [toInt, isMissingArg]
    | bool b => simp [toInt, isMissingArg, jsToNumber]
    | num n => simp [toInt, isMissingArg, jsToNumber]
    | str s =>
      by_cases hs : s = ""
      · subst hs
        simp [toInt, isMissingArg]
      · cases hc : jsToNumber coerce (.str s) <;>
          simp [toInt, isMissingArg, hs, hc]
    | arr xs =>
      cases hc : jsToNumber coerce (.arr xs) <;>
        simp [toInt, isMissingArg, hc]
    | obj fs =>
      cases hc : jsToNumber coerce (.obj fs) <;>
        simp [toInt, isMissingArg, hc]
  · cases h : toInt coerce year with
    | none => exact Or.inl rfl
    | some y =>
      right
      unfold getSBI
      rw [h]
      exact ⟨_, rfl⟩

/-! ## Claim about the recommendation renderer (`SuggestionSummary.jsx`) -/

/-- C6 counterexample: for the schema-shaped recommendation
`{ text: "Improve onboarding", owner: "HR", impact: "High" }` the rendered
card shows the text and the impact, but its meta line is exactly
"Impact: High" — the `owner` value "HR" appears nowhere in the rendered
output, because the renderer reads the key `ownership`, not `owner`. -/
theorem renderAction_owner_counterexample :
    renderAction (.obj [("text", .str "Improve onboarding"), ("owner", .str "HR"),
      ("impact", .str "High")]) =
      ⟨.str "Improve onboarding", some "Impact: High"⟩ ∧
    ¬ ("HR".toList <:+: "Impact: High".toList) := by
  exact ⟨rfl, by decide⟩

/-- C6 amended: the renderer displays the recommendation's text (from the
`recommendation` or `text` key) and its impact whenever `impact` is present;
an owner line is displayed only when the owner is given under the key
`ownership` — a recommendation using the report-schema key `owner` renders
with no owner line. -/
theorem renderAction_amended (t o i : String) (ht : t ≠ "") (ho : o ≠ "") (hi : i ≠ "") :
    renderAction (.obj [("text", .str t), ("ownership", .str o), ("impact", .str i)]) =
      ⟨.str t, some ("Owner: " ++ o ++ " · " ++ ("Impact: " ++ i))⟩ ∧
    renderAction (.obj [("text", .str t), ("owner", .str o), ("impact", .str i)]) =
      ⟨.str t, some ("Impact: " ++ i)⟩ ∧
    renderAction (.obj [("text", .str t), ("owner", .str o)]) = ⟨.str t, some ""⟩ := by
  refine ⟨?_, ?_, ?_⟩ <;>
    · unfold renderAction renderActionText renderActionMeta
      simp [jsGet, jsTruthy, jsOr, typeofString, typeofObject, jsToString,
        List.lookup, ht, ho, hi]

/-- C6 amended witness. -/
theorem renderAction_amended_witness :
    renderAction (.obj [("text", .str "Improve onboarding"), ("ownership", .str "HR"),
      ("impact", .str "High")]) =
      ⟨.str "Improve onboarding",
        some ("Owner: " ++ "HR" ++ " · " ++ ("Impact: " ++ "High"))⟩ ∧
    renderAction (.obj [("text", .str "Improve onboarding"), ("owner", .str "HR"),
      ("impact", .str "High")]) =
      ⟨.str "Improve onboarding", some ("Impact: " ++ "High")⟩ ∧
    renderAction (.obj [("text", .str "Improve onboarding"), ("owner", .str "HR")]) =
      ⟨.str "Improve onboarding", some ""⟩ :=
  renderAction_amended "Improve onboarding" "HR" "High"
    (by decide) (by decide) (by decide)

/-! ## Claim about `normalizePayload` (`SuggestionSummary.jsx`)

The two payload skeletons below carry every top-level key the adapter reads.
Any value may be `JVal.undefined`, which behaves exactly like an absent property
under `jsGet`, so the two skeletons range over all payload shapes whose keys
are among the read ones — `pSnakeCase` stores the three variant values under
the snake_case response keys (`key_patterns`, `section.executive_briefing`,
`risks_and_blindspots`), `pAltKeys` stores the same values under the
alternate key names the adapter accepts (`keyPatterns`,
`section.executiveBriefing`, `risks`). -/

def pSnakeCase (vsub vdim veb sov vtops vctx vreport vtitle vover vsum vkp
    vsnap vsent vrisks vrecs vpar : JVal) : JVal :=
  .obj [
    ("subtheme", vsub), ("dimension", vdim),
    ("section", .obj [("executive_briefing", veb), ("overview", sov)]),
    ("top_subthemes", vtops), ("typical_contexts", vctx),
    ("report_title", vreport), ("title", vtitle),
    ("overview", vover), ("summary", vsum),
    ("key_patterns", vkp),
    ("sentiment_snapshot", vsnap), ("sentiment", vsent),
    ("risks_and_blindspots", vrisks),
    ("recommendations", vrecs),
    ("parent_dimensions", vpar)]

def pAltKeys (vsub vdim veb sov vtops vctx vreport vtitle vover vsum vkp
    vsnap vsent vrisks vrecs vpar : JVal) : JVal :=
  .obj [
    ("subtheme", vsub), ("dimension", vdim),
    ("section", .obj [("executiveBriefing", veb), ("overview", sov)]),
    ("top_subthemes", vtops), ("typical_contexts", vctx),
    ("report_title", vreport), ("title", vtitle),
    ("overview", vover), ("summary", vsum),
    ("keyPatterns", vkp),
    ("sentiment_snapshot", vsnap), ("sentiment", vsent),
    ("risks", vrisks),
    ("recommendations", vrecs),
    ("parent_dimensions", vpar)]

lemma jsOr_undef_left (v : JVal) : jsOr .undefined v = v := rfl


lemma detectKind_keyVariants (vsub vdim veb sov vtops vctx vreport vtitle
    vover vsum vkp vsnap vsent vrisks vrecs vpar : JVal) :
    detectKind (pSnakeCase vsub vdim veb sov vtops vctx vreport vtitle
      vover vsum vkp vsnap vsent vrisks vrecs vpar) =
    detectKind (pAltKeys vsub vdim veb sov vtops vctx vreport vtitle
      vover vsum vkp vsnap vsent vrisks vrecs vpar) := by
  simp [pSnakeCase, pAltKeys, detectKind, jsGet, List.lookup, jsOr_undef_left,
    jsTruthy, typeofObject]

lemma normOverall_keyVariants (vsub vdim veb sov vtops vctx vreport vtitle
    vover vsum vkp vsnap vsent vrisks vrecs vpar : JVal) :
    normOverall (pSnakeCase vsub vdim veb sov vtops vctx vreport vtitle
      vover vsum vkp vsnap vsent vrisks vrecs vpar) =
    normOverall (pAltKeys vsub vdim veb sov vtops vctx vreport vtitle
      vover vsum vkp vsnap vsent vrisks vrecs vpar) := by
  simp [pSnakeCase, pAltKeys, normOverall, jsGet, List.lookup, jsOr_undef_left,
    jsOr, jsTruthy]

lemma normDimension_keyVariants (vsub vdim veb sov vtops vctx vreport vtitle
    vover vsum vkp vsnap vsent vrisks vrecs vpar : JVal) :
    normDimension (pSnakeCase vsub vdim veb sov vtops vctx vreport vtitle
      vover vsum vkp vsnap vsent vrisks vrecs vpar) =
    normDimension (pAltKeys vsub vdim veb sov vtops vctx vreport vtitle
      vover vsum vkp vsnap vsent vrisks vrecs vpar) := by
  simp [pSnakeCase, pAltKeys, normDimension, jsGet, List.lookup, jsOr_undef_left]

lemma normSubtheme_keyVariants (vsub vdim veb sov vtops vctx vreport vtitle
    vover vsum vkp vsnap vsent vrisks vrecs vpar : JVal) :
    normSubtheme (pSnakeCase vsub vdim veb sov vtops vctx vreport vtitle
      vover vsum vkp vsnap vsent vrisks vrecs vpar) =
    normSubtheme (pAltKeys vsub vdim veb sov vtops vctx vreport vtitle
      vover vsum vkp vsnap vsent vrisks vrecs vpar) := by
  simp [pSnakeCase, pAltKeys, normSubtheme, jsGet, List.lookup, jsOr_undef_left]

lemma normFallback_keyVariants (vsub vdim veb sov vtops vctx vreport vtitle
    vover vsum vkp vsnap vsent vrisks vrecs vpar : JVal) :
    normFallback (pSnakeCase vsub vdim veb sov vtops vctx vreport vtitle
      vover vsum vkp vsnap vsent vrisks vrecs vpar) =
    normFallback (pAltKeys vsub vdim veb sov vtops vctx vreport vtitle
      vover vsum vkp vsnap vsent vrisks vrecs vpar) := by
  simp [pSnakeCase, pAltKeys, normFallback, jsGet, List.lookup, jsOr_undef_left]

/-- C7: `normalizePayload` maps the heterogeneous narrative-service payload
shapes to one canonical model — for all payload field values, the variant
using the snake_case response keys (`key_patterns`, `executive_briefing`,
`risks_and_blindspots`) and the same payload using the alternate key names
the adapter accepts (`keyPatterns`, `executiveBriefing`, `risks`) normalize
to equal `{title, sections}` structures. -/
theorem normalizePayload_key_variants (vsub vdim veb sov vtops vctx vreport
    vtitle vover vsum vkp vsnap vsent vrisks vrecs vpar : JVal) :
    normalizePayload (pSnakeCase vsub vdim veb sov vtops vctx vreport vtitle
      vover vsum vkp vsnap vsent vrisks vrecs vpar) =
    normalizePayload (pAltKeys vsub vdim veb sov vtops vctx vreport vtitle
      vover vsum vkp vsnap vsent vrisks vrecs vpar) := by
  have hk := detectKind_keyVariants vsub vdim veb sov vtops vctx vreport
    vtitle vover vsum vkp vsnap vsent vrisks vrecs vpar
  unfold normalizePayload
  rw [show (!(jsTruthy (pSnakeCase vsub vdim veb sov vtops vctx vreport vtitle
      vover vsum vkp vsnap vsent vrisks vrecs vpar)) ||
      !(typeofObject (pSnakeCase vsub vdim veb sov vtops vctx vreport vtitle
      vover vsum vkp vsnap vsent vrisks vrecs vpar))) = false from rfl]
  rw [show (!(jsTruthy (pAltKeys vsub vdim veb sov vtops vctx vreport vtitle
      vover vsum vkp vsnap vsent vrisks vrecs vpar)) ||
      !(typeofObject (pAltKeys vsub vdim veb sov vtops vctx vreport vtitle
      vover vsum vkp vsnap vsent vrisks vrecs vpar))) = false from rfl]
  simp only [Bool.false_eq_true, if_false]
  rw [← hk]
  by_cases h1 : detectKind (pSnakeCase vsub vdim veb sov vtops vctx vreport
      vtitle vover vsum vkp vsnap vsent vrisks vrecs vpar) = "overall"
  · simp only [h1, if_true]
    exact normOverall_keyVariants vsub vdim veb sov vtops vctx vreport
      vtitle vover vsum vkp vsnap vsent vrisks vrecs vpar
  · by_cases h2 : detectKind (pSnakeCase vsub vdim veb sov vtops vctx vreport
        vtitle vover vsum vkp vsnap vsent vrisks vrecs vpar) = "dimension"
    · simp only [h1, h2, if_false, if_true]
      exact normDimension_keyVariants vsub vdim veb sov vtops vctx vreport
        vtitle vover vsum vkp vsnap vsent vrisks vrecs vpar
    · by_cases h3 : detectKind (pSnakeCase vsub vdim veb sov vtops vctx
          vreport vtitle vover vsum vkp vsnap vsent vrisks vrecs vpar) = "subtheme"
      · simp only [h1, h2, h3, if_false, if_true]
        exact normSubtheme_keyVariants vsub vdim veb sov vtops vctx vreport
          vtitle vover vsum vkp vsnap vsent vrisks vrecs vpar
      · simp only [h1, h2, h3, if_false]
        exact normFallback_keyVariants vsub vdim veb sov vtops vctx vreport
          vtitle vover vsum vkp vsnap vsent vrisks vrecs vpar

/-! ## Claim about `buildCommentTree` (`api.js`) -/

/-- Every comment sitting in a level-2 position of the built tree: the
replies of all nodes, followed by the dangling top-level nodes. -/
def collectLvl2 (ns : List CNode) : List RComment :=
  (ns.map CNode.replies).flatten ++
    (ns.filter (fun n => n.dangling)).map CNode.base

lemma attachLast_shape {ns : List CNode} {key : String} {c : RComment}
    {ns' : List CNode} (h : attachLast ns key c = some ns') :
    ∃ pre n post, ns = pre ++ n :: post ∧ n.dangling = false ∧
      n.base.comment_id_norm = key ∧
      ns' = pre ++ { n with replies := n.replies ++ [c] } :: post := by
  induction ns generalizing ns' with
  | nil => simp [attachLast] at h
  | cons m ms ih =>
    rw [attachLast] at h
    cases hrec : attachLast ms key c with
    | some ms' =>
      rw [hrec] at h
      obtain ⟨pre, n, post, h1, h2, h3, h4⟩ := ih hrec
      refine ⟨m :: pre, n, post, by simp [h1], h2, h3, ?_⟩
      cases h
      simp [h4]
    | none =>
      rw [hrec] at h
      by_cases hm : (m.dangling = false ∧ m.base.comment_id_norm = key)
      · rw [if_pos hm] at h
        cases h
        exact ⟨[], m, ms, rfl, hm.1, hm.2, rfl⟩
      · rw [if_neg hm] at h
        cases h

lemma attachLast_eq_none {ns : List CNode} {key : String} {c : RComment}
    (h : ∀ n ∈ ns, ¬(n.dangling = false ∧ n.base.comment_id_norm = key)) :
    attachLast ns key c = none := by
  induction ns with
  | nil => rfl
  | cons m ms ih =>
    rw [attachLast]
    rw [ih fun n hn => h n (List.mem_cons_of_mem _ hn)]
    rw [if_neg (h m (List.mem_cons_self _ _))]

lemma attachLast_isSome {ns : List CNode} {key : String} {c : RComment}
    (h : ∃ n ∈ ns, n.dangling = false ∧ n.base.comment_id_norm = key) :
    ∃ ns', attachLast ns key c = some ns' := by
  induction ns with
  | nil => simp at h
  | cons m ms ih =>
    cases hrec : attachLast ms key c with
    | some ms' => exact ⟨m :: ms', by rw [attachLast, hrec]⟩
    | none =>
      obtain ⟨n, hn, hd, hk⟩ := h
      rcases List.mem_cons.mp hn with rfl | hn'
      · exact ⟨_, by rw [attachLast, hrec, if_pos ⟨hd, hk⟩]⟩
      · obtain ⟨ms'', hms⟩ := ih ⟨n, hn', hd, hk⟩
        rw [hms] at hrec
        cases hrec

lemma collect_attachLast {ns : List CNode} {key : String} {c : RComment}
    {ns' : List CNode} (h : attachLast ns key c = some ns') :
    (collectLvl2 ns').Perm (collectLvl2 ns ++ [c]) := by
  obtain ⟨pre, n, post, h1, h2, _h3, h4⟩ := attachLast_shape h
  subst h1
  subst h4
  rw [List.perm_iff_count]
  intro a
  simp [collectLvl2, List.count_append, List.filter_append, h2, List.count_cons]
  omega

lemma treeStep_collect (ns : List CNode) (c : RComment) :
    (collectLvl2 (treeStep ns c)).Perm
      (collectLvl2 ns ++ (if isLvl2 c = true then [c] else [])) := by
  by_cases h : isLvl2 c = true
  · rw [if_pos h]
    unfold treeStep
    rw [if_pos h]
    cases hat : attachLast ns (lvl2Key c) c with
    | some ns' => exact collect_attachLast hat
    | none =>
      have : collectLvl2 (ns ++ [⟨c, [], true⟩]) = collectLvl2 ns ++ [c] := by
        simp [collectLvl2, List.filter_append]
      rw [this]
  · rw [if_neg h]
    unfold treeStep
    rw [if_neg h]
    simp

lemma foldl_collect (l : List RComment) (acc : List CNode) :
    (collectLvl2 (l.foldl treeStep acc)).Perm
      (collectLvl2 acc ++ l.filter isLvl2) := by
  induction l generalizing acc with
  | nil => simp
  | cons c l ih =>
    simp only [List.foldl_cons, List.filter_cons]
    refine (ih (treeStep acc c)).trans ?_
    have h1 := (treeStep_collect acc c).append_right (l.filter isLvl2)
    by_cases h : isLvl2 c = true
    · simp only [h, if_true] at h1 ⊢
      refine h1.trans ?_
      rw [List.append_assoc]
      rfl
    · simp only [h, if_false] at h1 ⊢
      simpa using h1

lemma collect_pass1 (flat : List RComment) : collectLvl2 (pass1 flat) = [] := by
  induction flat with
  | nil => rfl
  | cons c l ih =>
    by_cases h : isLvl1 c = true
    · simpa [pass1, List.filterMap_cons, h, collectLvl2] using ih
    · simpa [pass1, List.filterMap_cons, h, collectLvl2] using ih

/-- The normalized ids the second pass can still attach to (the keys of the
`Map`, i.e. of the non-dangling nodes). -/
def ndKeys (ns : List CNode) : List String :=
  (ns.filter (fun n => !n.dangling)).map (fun n => n.base.comment_id_norm)

lemma ndKeys_treeStep (ns : List CNode) (c : RComment) :
    ndKeys (treeStep ns c) = ndKeys ns := by
  by_cases h : isLvl2 c = true
  · unfold treeStep
    rw [if_pos h]
    cases hat : attachLast ns (lvl2Key c) c with
    | some ns' =>
      obtain ⟨pre, n, post, h1, h2, _h3, h4⟩ := attachLast_shape hat
      subst h1
      subst h4
      simp [ndKeys, List.filter_append, h2]
    | none => simp [ndKeys, List.filter_append]
  · unfold treeStep
    rw [if_neg h]

lemma ndKeys_foldl (l : List RComment) (acc : List CNode) :
    ndKeys (l.foldl treeStep acc) = ndKeys acc := by
  induction l generalizing acc with
  | nil => rfl
  | cons c l ih => rw [List.foldl_cons, ih, ndKeys_treeStep]

lemma mem_ndKeys {ns : List CNode} {k : String} :
    k ∈ ndKeys ns ↔ ∃ n ∈ ns, n.dangling = false ∧ n.base.comment_id_norm = k := by
  simp [ndKeys, List.mem_filter]
  constructor
  · rintro ⟨n, ⟨hn, hd⟩, hk⟩
    exact ⟨n, hn, by simpa using hd, hk⟩
  · rintro ⟨n, hn, hd, hk⟩
    exact ⟨n, ⟨hn, by simp [hd]⟩, hk⟩

lemma treeStep_preserves_reply {ns : List CNode} {k : String} {c : RComment}
    (c' : RComment)
    (h : ∃ n ∈ ns, n.dangling = false ∧ n.base.comment_id_norm = k ∧ c ∈ n.replies) :
    ∃ n ∈ treeStep ns c', n.dangling = false ∧ n.base.comment_id_norm = k ∧
      c ∈ n.replies := by
  obtain ⟨n, hn, hd, hk, hc⟩ := h
  by_cases hl : isLvl2 c' = true
  · unfold treeStep
    rw [if_pos hl]
    cases hat : attachLast ns (lvl2Key c') c' with
    | some ns' =>
      obtain ⟨pre, m, post, h1, h2, _h3, h4⟩ := attachLast_shape hat
      subst h1
      subst h4
      rcases List.mem_append.mp hn with hpre | hrest
      · exact ⟨n, List.mem_append_left _ hpre, hd, hk, hc⟩
      · rcases List.mem_cons.mp hrest with rfl | hpost
        · refine ⟨{ n with replies := n.replies ++ [c'] },
            List.mem_append_right _ (List.mem_cons_self _ _), hd, hk, ?_⟩
          exact List.mem_append_left _ hc
        · exact ⟨n, List.mem_append_right _ (List.mem_cons_of_mem _ hpost), hd, hk, hc⟩
    | none =>
      exact ⟨n, List.mem_append_left _ hn, hd, hk, hc⟩
  · unfold treeStep
    rw [if_neg hl]
    exact ⟨n, hn, hd, hk, hc⟩

lemma treeStep_preserves_dangling {ns : List CNode} {c : RComment}
    (c' : RComment) (h : (⟨c, [], true⟩ : CNode) ∈ ns) :
    (⟨c, [], true⟩ : CNode) ∈ treeStep ns c' := by
  by_cases hl : isLvl2 c' = true
  · unfold treeStep
    rw [if_pos hl]
    cases hat : attachLast ns (lvl2Key c') c' with
    | some ns' =>
      obtain ⟨pre, m, post, h1, h2, _h3, h4⟩ := attachLast_shape hat
      subst h1
      subst h4
      rcases List.mem_append.mp h with hpre | hrest
      · exact List.mem_append_left _ hpre
      · rcases List.mem_cons.mp hrest with he | hpost
        · exact absurd (congrArg CNode.dangling he).symm (by simp [h2])
        · exact List.mem_append_right _ (List.mem_cons_of_mem _ hpost)
    | none => exact List.mem_append_left _ h
  · unfold treeStep
    rw [if_neg hl]
    exact h

lemma foldl_preserves_reply {k : String} {c : RComment} (l : List RComment)
    {acc : List CNode}
    (h : ∃ n ∈ acc, n.dangling = false ∧ n.base.comment_id_norm = k ∧ c ∈ n.replies) :
    ∃ n ∈ l.foldl treeStep acc, n.dangling = false ∧
      n.base.comment_id_norm = k ∧ c ∈ n.replies := by
  induction l generalizing acc with
  | nil => exact h
  | cons c' l ih => exact ih (treeStep_preserves_reply c' h)

lemma foldl_preserves_dangling {c : RComment} (l : List RComment)
    {acc : List CNode} (h : (⟨c, [], true⟩ : CNode) ∈ acc) :
    (⟨c, [], true⟩ : CNode) ∈ l.foldl treeStep acc := by
  induction l generalizing acc with
  | nil => exact h
  | cons c' l ih => exact ih (treeStep_preserves_dangling c' h)

lemma treeStep_attaches {ns : List CNode} {c : RComment}
    (hl : isLvl2 c = true) (hk : lvl2Key c ∈ ndKeys ns) :
    ∃ n ∈ treeStep ns c, n.dangling = false ∧
      n.base.comment_id_norm = lvl2Key c ∧ c ∈ n.replies := by
  obtain ⟨ns', hat⟩ := attachLast_isSome (mem_ndKeys.mp hk) (c := c)
  unfold treeStep
  rw [if_pos hl, hat]
  obtain ⟨pre, n, post, _h1, h2, h3, h4⟩ := attachLast_shape hat
  subst h4
  refine ⟨{ n with replies := n.replies ++ [c] },
    List.mem_append_right _ (List.mem_cons_self _ _), h2, h3, ?_⟩
  simp

lemma treeStep_dangles {ns : List CNode} {c : RComment}
    (hl : isLvl2 c = true) (hk : lvl2Key c ∉ ndKeys ns) :
    (⟨c, [], true⟩ : CNode) ∈ treeStep ns c := by
  unfold treeStep
  rw [if_pos hl, attachLast_eq_none]
  · exact List.mem_append_right _ (List.mem_cons_self _ _)
  · intro n hn hcontra
    exact hk (mem_ndKeys.mpr ⟨n, hn, hcontra.1, hcontra.2⟩)

lemma foldl_placement (l : List RComment) (acc : List CNode) (c : RComment)
    (hc : c ∈ l) (hl : isLvl2 c = true) :
    (lvl2Key c ∈ ndKeys acc →
      ∃ n ∈ l.foldl treeStep acc, n.dangling = false ∧
        n.base.comment_id_norm = lvl2Key c ∧ c ∈ n.replies) ∧
    (lvl2Key c ∉ ndKeys acc → (⟨c, [], true⟩ : CNode) ∈ l.foldl treeStep acc) := by
  induction l generalizing acc with
  | nil => simp at hc
  | cons c₀ l ih =>
    rw [List.foldl_cons]
    rcases List.mem_cons.mp hc with rfl | hc'
    · constructor
      · intro hk
        exact foldl_preserves_reply l (treeStep_attaches hl hk)
      · intro hk
        exact foldl_preserves_dangling l (treeStep_dangles hl hk)
    · have hkeys := ndKeys_treeStep acc c₀
      constructor
      · intro hk
        exact (ih (treeStep acc c₀) hc').1 (by rw [hkeys]; exact hk)
      · intro hk
        exact (ih (treeStep acc c₀) hc').2 (by rw [hkeys]; exact hk)

lemma ndKeys_pass1 {flat : List RComment} {k : String} :
    k ∈ ndKeys (pass1 flat) ↔
      ∃ p ∈ flat, isLvl1 p = true ∧ lvl1Key p = k := by
  rw [mem_ndKeys]
  constructor
  · rintro ⟨n, hn, _hd, hk⟩
    rw [pass1, List.mem_filterMap] at hn
    obtain ⟨p, hp, hpn⟩ := hn
    by_cases h : isLvl1 p = true
    · rw [if_pos h] at hpn
      cases hpn
      exact ⟨p, hp, h, hk⟩
    · rw [if_neg h] at hpn
      cases hpn
  · rintro ⟨p, hp, h, hkey⟩
    refine ⟨⟨{ p with comment_id_norm := lvl1Key p }, [], false⟩, ?_, rfl, hkey⟩
    rw [pass1, List.mem_filterMap]
    exact ⟨p, hp, by rw [if_pos h]⟩

/-- C8: `buildCommentTree` places every level-2 comment (level 2 or depth 1)
in its output exactly once — the comments sitting in level-2 positions
(replies plus dangling top-level nodes) are a permutation of the level-2
rows of the input, so none is dropped or duplicated — and each such comment
is attached as a reply of a level-1 node carrying its normalized parent id
whenever some level-1 comment of the list has that normalized id, and
otherwise appears as a top-level node marked `_dangling`. -/
theorem buildCommentTree_level2_placement (flat : List RComment) :
    (collectLvl2 (buildCommentTree flat)).Perm (flat.filter isLvl2) ∧
    ∀ c ∈ flat, isLvl2 c = true →
      ((∃ p ∈ flat, isLvl1 p = true ∧ lvl1Key p = lvl2Key c) →
        ∃ n ∈ buildCommentTree flat, n.dangling = false ∧
          n.base.comment_id_norm = lvl2Key c ∧ c ∈ n.replies) ∧
      ((¬ ∃ p ∈ flat, isLvl1 p = true ∧ lvl1Key p = lvl2Key c) →
        (⟨c, [], true⟩ : CNode) ∈ buildCommentTree flat) := by
  unfold buildCommentTree
  constructor
  · have h := foldl_collect flat (pass1 flat)
    rwa [collect_pass1, List.nil_append] at h
  · intro c hc hl
    have hpl := foldl_placement flat (pass1 flat) c hc hl
    exact ⟨fun hex => hpl.1 (ndKeys_pass1.mpr hex),
      fun hex => hpl.2 (fun hk => hex (ndKeys_pass1.mp hk))⟩
